import Mathlib

/-!
Verification of the projection kernels and series-expansion evaluator of the
geometry repository: Cassini, Eckert IV, Equidistant Conic and
Quadrilateralized Spherical Cube forward/inverse/setup code, together with
the series machinery of `series_expansion.hpp`.  C++ `double` arithmetic is
embedded as exact real arithmetic (`ℝ`); fallible construction is embedded
as `Except`; a value read before assignment is embedded as `Option`.
-/

noncomputable section

open Real
open scoped Classical

/-! ## Series expansion (`boost/geometry/util/series_expansion.hpp`) -/

/-- `evaluate_A1` from `series_expansion.hpp`.  The C++ dispatches
`switch (SeriesOrder/2)` over cases `0..4` with no `default:`; the local
`CT t;` stays uninitialized for any other order, which we embed as `none`.
The final `return (t + eps) / (CT(1) - eps)` is the `Option.map`. -/
def evaluate_A1 (order : ℕ) (eps : ℝ) : Option ℝ :=
  let eps2 := eps ^ 2
  let t : Option ℝ :=
    match order / 2 with
    | 0 => some 0
    | 1 => some (eps2 / 4)
    | 2 => some (eps2 * (eps2 + 16) / 64)
    | 3 => some (eps2 * (eps2 * (eps2 + 4) + 64) / 256)
    | 4 => some (eps2 * (eps2 * (eps2 * (25 * eps2 + 64) + 256) + 4096) / 16384)
    | _ => none
  t.map (fun t0 => (t0 + eps) / (1 - eps))

/-- `evaluate_A2` from `series_expansion.hpp`.  Its `switch (SeriesOrder/2)`
has cases `0..3` and a `default:` branch, so `t` is assigned for every
order.  The final `return (t - eps) / (CT(1) + eps)` is the `Option.map`. -/
def evaluate_A2 (order : ℕ) (eps : ℝ) : Option ℝ :=
  let eps2 := eps ^ 2
  let t : Option ℝ :=
    match order / 2 with
    | 0 => some 0
    | 1 => some (-3 * eps2 / 4)
    | 2 => some ((-7 * eps2 - 48) * eps2 / 64)
    | 3 => some (eps2 * ((-11 * eps2 - 28) * eps2 - 192) / 256)
    | _ => some (eps2 * (eps2 * ((-375 * eps2 - 704) * eps2 - 1792) - 12288) / 16384)
  t.map (fun t0 => (t0 - eps) / (1 + eps))

/-- The unrolled-by-2 Clenshaw loop of `sin_cos_series`:
`while (n--) { k1 = ar*k0 - k1 + c[--index]; k0 = ar*k1 - k0 + c[--index]; }`.
`m` is the remaining trip count, `index` points one past the next element. -/
def clenshaw_loop (ar : ℝ) (c : ℕ → ℝ) : ℕ → ℕ → ℝ → ℝ → ℝ × ℝ
  | 0, _, k0, k1 => (k0, k1)
  | m + 1, index, k0, k1 =>
      let k1n := ar * k0 - k1 + c (index - 1)
      let k0n := ar * k1n - k0 + c (index - 2)
      clenshaw_loop ar c m (index - 2) k0n k1n

/-- `sin_cos_series(sinx, cosx, coeffs)` from `series_expansion.hpp`:
`n = static_size - 1`, `ar = 2*(cosx - sinx)*(cosx + sinx)`,
`k0 = n & 1 ? coeffs[--index] : 0`, then the unrolled Clenshaw loop and
`return 2 * sinx * cosx * k0`.  `N` is `Coeffs::static_size` and `c i` is
`coeffs[i]`. -/
def sin_cos_series (sinx cosx : ℝ) (N : ℕ) (c : ℕ → ℝ) : ℝ :=
  let n := N - 1
  let ar := 2 * (cosx - sinx) * (cosx + sinx)
  let k0 := if n % 2 = 1 then c n else 0
  let index := if n % 2 = 1 then n else n + 1
  2 * sinx * cosx * (clenshaw_loop ar c (n / 2) index k0 0).1

/-! ## Math-library model -/

/-- The C library `atan2(y, x)` modelled over `ℝ` (quadrant-correct
arctangent; `atan2(0,0) = 0`). -/
def atan2 (y x : ℝ) : ℝ :=
  if 0 < x then arctan (y / x)
  else if x < 0 then
    (if 0 ≤ y then arctan (y / x) + π else arctan (y / x) - π)
  else
    (if 0 < y then π / 2 else if y < 0 then -(π / 2) else 0)

/-! ## Elliptic/meridian-arc helpers

Modelled from the spec: `pj_enfn`, `pj_mlfn`, `pj_inv_mlfn` and `pj_msfn`
live in `impl/pj_mlfn.hpp` / `impl/pj_msfn.hpp`, which are not among the
source files; the spec describes them only abstractly ("fixed-coefficient
truncated series", "Newton-style correction", "closed-form expression").
We therefore keep them as an abstract record of pure functions; every
theorem that touches them holds for an arbitrary interpretation `H`.
`pj_enfn` may fail for degenerate eccentricity, which the spec says is
propagated as a construction-time failure, hence the `Option`. -/
structure EllipticHelpers where
  enfn : ℝ → Option (Fin 5 → ℝ)
  mlfn : ℝ → ℝ → ℝ → (Fin 5 → ℝ) → ℝ
  inv_mlfn : ℝ → ℝ → (Fin 5 → ℝ) → ℝ
  msfn : ℝ → ℝ → ℝ → ℝ

/-- A concrete interpretation of the helper record, used only to
instantiate universally quantified theorems in witnesses.  Its `enfn`
succeeds exactly on non-degenerate squared eccentricities `0 ≤ es < 1`. -/
def Htriv : EllipticHelpers where
  enfn := fun es => if 0 ≤ es ∧ es < 1 then some (fun _ => 0) else none
  mlfn := fun phi _ _ _ => phi
  inv_mlfn := fun m _ _ => m
  msfn := fun _ _ _ => 1

/-! ## Cassini (`proj/cass.hpp`) -/

/-- `par_cass`: the Cassini constant block (`m0`, `en[EN_SIZE]`). -/
structure par_cass where
  m0 : ℝ
  en : Fin 5 → ℝ

/-- The fields of the shared parameter record `Parameters` that the Cassini
kernel reads. -/
structure CassParams where
  es : ℝ
  phi0 : ℝ

/-- `setup_cass`: if `par.es` is nonzero, build `en` via `pj_enfn`
(throwing `proj_exception(0)` on failure) and set
`m0 = pj_mlfn(phi0, sin phi0, cos phi0, en)`; in the sphere case the
constant block is left untouched (the spherical kernel never reads it). -/
def setup_cass (H : EllipticHelpers) (p : CassParams) : Except Int par_cass :=
  if p.es ≠ 0 then
    match H.enfn p.es with
    | none => .error 0
    | some en => .ok ⟨H.mlfn p.phi0 (Real.sin p.phi0) (Real.cos p.phi0) en, en⟩
  else .ok ⟨0, fun _ => 0⟩

/-- `base_cass_spheroid::fwd`:
`xy_x = asin(cos(lat) * sin(lon)); xy_y = atan2(tan(lat), cos(lon)) - phi0`. -/
def cass_s_fwd (phi0 lon lat : ℝ) : ℝ × ℝ :=
  (arcsin (Real.cos lat * Real.sin lon), atan2 (Real.tan lat) (Real.cos lon) - phi0)

/-- `base_cass_spheroid::inv`:
`dd = y + phi0; lat = asin(sin(dd) * cos(x)); lon = atan2(tan(x), cos(dd))`. -/
def cass_s_inv (phi0 x y : ℝ) : ℝ × ℝ :=
  (atan2 (Real.tan x) (Real.cos (y + phi0)), arcsin (Real.sin (y + phi0) * Real.cos x))

/-- The fixed series constants `C1..C5` of `cass.hpp` and
`base_cass_ellipsoid::fwd`, transcribed term by term. -/
def cass_e_fwd (H : EllipticHelpers) (es : ℝ) (q : par_cass) (lon lat : ℝ) : ℝ × ℝ :=
  let n1 := Real.sin lat
  let c1 := Real.cos lat
  let y0 := H.mlfn lat n1 c1 q.en
  let n2 := 1 / Real.sqrt (1 - es * n1 * n1)
  let tn := Real.tan lat
  let t := tn * tn
  let a1 := lon * c1
  let c2 := es * c1 * c1 / (1 - es)
  let a2 := a1 * a1
  (n2 * a1 * (1 - a2 * t * (0.16666666666666666666 - (8 - t + 8 * c2) * a2 * 0.00833333333333333333)),
   y0 - q.m0 + n2 * tn * a2 * (0.5 + (5 - t + 6 * c2) * a2 * 0.04166666666666666666))

/-! ## Equidistant Conic (`proj/eqdc.hpp`) -/

/-- `EPS10` from `eqdc.hpp` (also used by `cass.hpp` and `qsc.hpp`). -/
def EPS10 : ℝ := 1e-10

/-- `par_eqdc`: the Equidistant Conic constant block. -/
structure par_eqdc where
  phi1 : ℝ
  phi2 : ℝ
  n : ℝ
  rho0 : ℝ
  c : ℝ
  en : Fin 5 → ℝ
  ellips : Bool

/-- The parameter-record fields the Equidistant Conic reads: the two
standard parallels `rlat_1`/`rlat_2`, the squared eccentricity and the
reference latitude. -/
structure EqdcParams where
  phi1 : ℝ
  phi2 : ℝ
  es : ℝ
  phi0 : ℝ

/-- `setup_eqdc`, including the degenerate-parallel check
`if (fabs(phi1 + phi2) < EPS10) throw proj_exception(-21)`, the `pj_enfn`
failure path (`proj_exception(0)`), the tangent/secant dispatch
`secant = fabs(phi1 - phi2) >= EPS10`, and the separate ellipsoid
(`es > 0`) and sphere constant derivations. -/
def setup_eqdc (H : EllipticHelpers) (p : EqdcParams) : Except Int par_eqdc :=
  if |p.phi1 + p.phi2| < EPS10 then .error (-21)
  else
    match H.enfn p.es with
    | none => .error 0
    | some en =>
      let sinphi := Real.sin p.phi1
      let cosphi := Real.cos p.phi1
      let secant := EPS10 ≤ |p.phi1 - p.phi2|
      if p.es > 0 then
        let m1 := H.msfn sinphi cosphi p.es
        let ml1 := H.mlfn p.phi1 sinphi cosphi en
        let n := if secant then
            (m1 - H.msfn (Real.sin p.phi2) (Real.cos p.phi2) p.es) /
              (H.mlfn p.phi2 (Real.sin p.phi2) (Real.cos p.phi2) en - ml1)
          else sinphi
        let c := ml1 + m1 / n
        let rho0 := c - H.mlfn p.phi0 (Real.sin p.phi0) (Real.cos p.phi0) en
        .ok ⟨p.phi1, p.phi2, n, rho0, c, en, true⟩
      else
        let n := if secant then
            (cosphi - Real.cos p.phi2) / (p.phi2 - p.phi1)
          else sinphi
        let c := p.phi1 + Real.cos p.phi1 / n
        let rho0 := c - p.phi0
        .ok ⟨p.phi1, p.phi2, n, rho0, c, en, false⟩

/-- `base_eqdc_ellipsoid::fwd` (shared sphere/ellipsoid code):
`rho = c - (ellips ? pj_mlfn(lat, sin lat, cos lat, en) : lat)`,
`x = rho * sin(lon * n)`, `y = rho0 - rho * cos(lon * n)`. -/
def eqdc_fwd (H : EllipticHelpers) (q : par_eqdc) (lon lat : ℝ) : ℝ × ℝ :=
  let rho := q.c - (if q.ellips then H.mlfn lat (Real.sin lat) (Real.cos lat) q.en else lat)
  (rho * Real.sin (lon * q.n), q.rho0 - rho * Real.cos (lon * q.n))

/-- `base_eqdc_ellipsoid::inv`: `rho = hypot(x, y' = rho0 - y)`; when
`rho != 0`, negate `rho`, `x`, `y'` if `n < 0`, recover the latitude from
`c - rho` (through `pj_inv_mlfn` on the ellipsoid) and the longitude as
`atan2(x, y') / n`; when `rho == 0`, return longitude `0` and latitude
`±half_pi` by the sign of `n`.  Returned as `(lon, lat)`. -/
def eqdc_inv (H : EllipticHelpers) (es : ℝ) (q : par_eqdc) (x y : ℝ) : ℝ × ℝ :=
  let y1 := q.rho0 - y
  let rho := Real.sqrt (x ^ 2 + y1 ^ 2)
  if rho = 0 then (0, if 0 < q.n then π / 2 else -(π / 2))
  else
    let rho2 := if q.n < 0 then -rho else rho
    let x2 := if q.n < 0 then -x else x
    let y2 := if q.n < 0 then -y1 else y1
    let latp := q.c - rho2
    let lat := if q.ellips then H.inv_mlfn latp es q.en else latp
    (atan2 x2 y2 / q.n, lat)

/-! ## Eckert IV (`proj/eck4.hpp`) -/

/-- `C_x` from `eck4.hpp`. -/
def C_x : ℝ := 0.42223820031577120149

/-- `C_y` from `eck4.hpp`. -/
def C_y : ℝ := 1.32650042817700232218

/-- `C_p` from `eck4.hpp`. -/
def C_p : ℝ := 3.57079632679489661922

/-- `EPS` from `eck4.hpp`, the Newton-iteration tolerance. -/
def EPS : ℝ := 1e-7

/-- One Newton correction of `base_eck4_spheroid::fwd`:
`V = (lat + sin(lat)*(cos(lat) + 2) - p) / (1 + cos(lat)*(cos(lat) + 2) - sin(lat)*sin(lat))`. -/
def eck4_V (p lat : ℝ) : ℝ :=
  (lat + Real.sin lat * (Real.cos lat + 2) - p) /
    (1 + Real.cos lat * (Real.cos lat + 2) - Real.sin lat * Real.sin lat)

/-- The loop `for (i = NITER; i; --i) { ...; lat -= V; if (fabs(V) < EPS) break; }`
of `base_eck4_spheroid::fwd`.  Returns the final value of `i` (`0` exactly
when the budget was exhausted) and the final `lat`. -/
def eck4_iter : ℕ → ℝ → ℝ → ℕ × ℝ
  | 0, _, lat => (0, lat)
  | i + 1, p, lat =>
      if |eck4_V p lat| < EPS then (i + 1, lat - eck4_V p lat)
      else eck4_iter i p (lat - eck4_V p lat)

/-- The polynomial seed `lat *= 0.895168 + V*(0.0218849 + V*0.00826809)`
(with `V = lat*lat`) of `base_eck4_spheroid::fwd`. -/
def eck4_seed (lat : ℝ) : ℝ :=
  lat * (0.895168 + lat * lat * (0.0218849 + lat * lat * 0.00826809))

/-- `base_eck4_spheroid::fwd`: seed, at most `NITER = 6` Newton steps, then
either the non-convergence fallback `(C_x*lon, ±C_y)` (sign of the iterated
auxiliary angle) or the converged closed form. -/
def eck4_fwd (lon lat : ℝ) : ℝ × ℝ :=
  let p := C_p * Real.sin lat
  let r := eck4_iter 6 p (eck4_seed lat)
  if r.1 = 0 then (C_x * lon, if r.2 < 0 then -C_y else C_y)
  else (C_x * lon * (1 + Real.cos r.2), C_y * Real.sin r.2)

/-! ## Quadrilateralized Spherical Cube (`proj/qsc.hpp`) -/

/-- `FACE_FRONT` from `qsc.hpp`. -/
def FACE_FRONT : ℕ := 0

/-- `FACE_RIGHT` from `qsc.hpp`. -/
def FACE_RIGHT : ℕ := 1

/-- `FACE_BACK` from `qsc.hpp`. -/
def FACE_BACK : ℕ := 2

/-- `FACE_LEFT` from `qsc.hpp`. -/
def FACE_LEFT : ℕ := 3

/-- `FACE_TOP` from `qsc.hpp`. -/
def FACE_TOP : ℕ := 4

/-- `FACE_BOTTOM` from `qsc.hpp`. -/
def FACE_BOTTOM : ℕ := 5

/-- The cube-face selection of `setup_qsc`, with `FORTPI = π/4`:
top when `phi0 >= half_pi - FORTPI/2`, bottom when
`phi0 <= -(half_pi - FORTPI/2)`, then front / right / left / back by the
longitude quadrant of `lam0`. -/
def qsc_face (phi0 lam0 : ℝ) : ℕ :=
  if π / 2 - π / 4 / 2 ≤ phi0 then FACE_TOP
  else if phi0 ≤ -(π / 2 - π / 4 / 2) then FACE_BOTTOM
  else if |lam0| ≤ π / 4 then FACE_FRONT
  else if |lam0| ≤ π / 2 + π / 4 then (if 0 < lam0 then FACE_RIGHT else FACE_LEFT)
  else FACE_BACK

/-- The clamp `if (cosphi < -1.0) cosphi = -1.0; else if (cosphi > +1.0) cosphi = +1.0;`
of `base_qsc_ellipsoid::inv`. -/
def qsc_clamp (c : ℝ) : ℝ :=
  if c < -1 then -1 else if 1 < c then 1 else c

/-- The area determination and `mu` normalization of
`base_qsc_ellipsoid::inv` (axis-aligned comparisons on `(x, y)`). -/
def qsc_inv_area_mu (x y : ℝ) : ℕ × ℝ :=
  let mu := atan2 y x
  if 0 ≤ x ∧ |y| ≤ x then (0, mu)
  else if 0 ≤ y ∧ |x| ≤ y then (1, mu - π / 2)
  else if x < 0 ∧ |y| ≤ -x then (2, if mu < 0 then mu + π else mu - π)
  else (3, mu + π / 2)

/-- `theta` recovery of `base_qsc_ellipsoid::inv`:
`t = (π/12) * tan(mu); theta = atan(sin(t) / (cos(t) - 1/sqrt(2)))`. -/
def qsc_inv_theta (mu : ℝ) : ℝ :=
  arctan (Real.sin (π / 12 * Real.tan mu) /
    (Real.cos (π / 12 * Real.tan mu) - 1 / Real.sqrt 2))

/-- The raw (pre-clamp) `cosphi` of `base_qsc_ellipsoid::inv`:
`1 - cos(mu)^2 * tan(nu)^2 * (1 - cos(atan(1/cos(theta))))` with
`nu = atan(hypot(x, y))`. -/
def qsc_inv_cosphi_raw (x y : ℝ) : ℝ :=
  let nu := arctan (Real.sqrt (x * x + y * y))
  let mu := (qsc_inv_area_mu x y).2
  let theta := qsc_inv_theta mu
  1 - Real.cos mu ^ 2 * Real.tan nu ^ 2 * (1 - Real.cos (arctan (1 / Real.cos theta)))

/-- The clamped `cosphi` actually passed on by `base_qsc_ellipsoid::inv`. -/
def qsc_inv_cosphi (x y : ℝ) : ℝ :=
  qsc_clamp (qsc_inv_cosphi_raw x y)

/-- The guarded unit-sphere components of `base_qsc_ellipsoid::inv`
(non-top/bottom faces): `q = cosphi; t = q*q;
s = (t >= 1) ? 0 : sqrt(1-t)*sin(theta); t += s*s;
r = (t >= 1) ? 0 : sqrt(1-t)`.  Returned as `(q, r, s)`. -/
def qsc_inv_qrs (cosphi theta : ℝ) : ℝ × ℝ × ℝ :=
  let q := cosphi
  let t1 := q * q
  let s := if 1 ≤ t1 then 0 else Real.sqrt (1 - t1) * Real.sin theta
  let t2 := t1 + s * s
  let r := if 1 ≤ t2 then 0 else Real.sqrt (1 - t2)
  (q, r, s)

/-- The per-area rotation of `(q, r, s)` in `base_qsc_ellipsoid::inv`. -/
def qsc_area_rotate (area : ℕ) (v : ℝ × ℝ × ℝ) : ℝ × ℝ × ℝ :=
  let q := v.1
  let r := v.2.1
  let s := v.2.2
  if area = 1 then (q, -s, r)
  else if area = 2 then (q, -r, -s)
  else if area = 3 then (q, s, -r)
  else (q, r, s)

/-- The per-face rotation of `(q, r, s)` in `base_qsc_ellipsoid::inv`. -/
def qsc_face_rotate (face : ℕ) (v : ℝ × ℝ × ℝ) : ℝ × ℝ × ℝ :=
  let q := v.1
  let r := v.2.1
  let s := v.2.2
  if face = FACE_RIGHT then (-r, q, s)
  else if face = FACE_BACK then (-q, -r, s)
  else if face = FACE_LEFT then (r, -q, s)
  else (q, r, s)

/-- The spherical latitude/longitude recovery of `base_qsc_ellipsoid::inv`
on a non-top/bottom face: `lat = acos(-s) - half_pi; lon = atan2(r, q)`
(the subsequent per-face longitude shift does not affect the guard
properties). -/
def qsc_inv_latlon (v : ℝ × ℝ × ℝ) : ℝ × ℝ :=
  (atan2 v.2.1 v.1, Real.arccos (-v.2.2) - π / 2)

/-! ## Claim C3: well-definedness of `evaluate_A1` / `evaluate_A2` -/

/-- Claim C3 as stated is false: `evaluate_A1` instantiated at series order
`10` (`order/2 = 5`) falls through every `case` of its `switch`, so the
intermediate `t` is used uninitialized; the embedding returns `none`. -/
theorem C3_counterexample : evaluate_A1 10 0 = none := rfl

/-- Claim C3 (amended): `evaluate_A2` returns a well-defined arithmetic
value for every order and every `eps` (its dispatch has a `default`
branch), and `evaluate_A1` does so exactly when `order/2 ≤ 4`, i.e. for
every order up to `9`. -/
theorem C3_amended (order : ℕ) (eps : ℝ) :
    (order / 2 ≤ 4 → (evaluate_A1 order eps).isSome) ∧ (evaluate_A2 order eps).isSome := by
  constructor
  · intro h
    unfold evaluate_A1
    rcases hn : order / 2 with _ | _ | _ | _ | _ | k
    · rfl
    · rfl
    · rfl
    · rfl
    · rfl
    · omega
  · unfold evaluate_A2
    rcases hn : order / 2 with _ | _ | _ | _ | _ | k
    all_goals rfl

/-- Witness for C3: at order `9` (`9/2 = 4`) both evaluators produce a
value. -/
theorem C3_witness : (evaluate_A1 9 (0 : ℝ)).isSome ∧ (evaluate_A2 9 (0 : ℝ)).isSome :=
  ⟨(C3_amended 9 0).1 (by norm_num), (C3_amended 9 0).2⟩

/-! ## Claim C5: degenerate standard parallels are rejected -/

/-- Claim C5: constructing an Equidistant Conic kernel with
`|phi1 + phi2| < 1e-10` always fails with the structured error code `-21`,
before any projection constant is derived (for every interpretation of the
elliptic helpers, i.e. independently of `pj_enfn`/`pj_mlfn`/`pj_msfn`). -/
theorem C5_eqdc_degenerate_error (H : EllipticHelpers) (p : EqdcParams)
    (h : |p.phi1 + p.phi2| < EPS10) :
    setup_eqdc H p = .error (-21) := by
  rw [setup_eqdc, if_pos h]

/-- Witness for C5: `phi1 = 1`, `phi2 = -1` (exactly antipodal parallels). -/
theorem C5_witness : setup_eqdc Htriv ⟨1, -1, 0, 0⟩ = .error (-21) :=
  C5_eqdc_degenerate_error Htriv ⟨1, -1, 0, 0⟩ (by norm_num [EPS10])

/-! ## Claim C6: the tangent cone `n = sin(phi1)` -/

/-- Claim C6: when `|phi1 - phi2| < 1e-10` (the non-secant case) and setup
succeeds, the cone constant is exactly `n = sin(phi1)`, with no secant
correction, on both the sphere path and the ellipsoid path (the branch on
`es > 0` is irrelevant to `n`). -/
theorem C6_eqdc_tangent_cone (H : EllipticHelpers) (p : EqdcParams)
    (hsum : EPS10 ≤ |p.phi1 + p.phi2|) (hdiff : |p.phi1 - p.phi2| < EPS10)
    (henfn : (H.enfn p.es).isSome) :
    (setup_eqdc H p).map (fun q => q.n) = .ok (Real.sin p.phi1) := by
  obtain ⟨en, hen⟩ := Option.isSome_iff_exists.mp henfn
  rw [setup_eqdc, if_neg (not_lt.mpr hsum), hen]
  by_cases hes : p.es > 0 <;>
    simp [hes, if_neg (not_le.mpr hdiff), Except.map]

/-- Witness for C6: `phi1 = phi2 = 1`, sphere path (`es = 0`). -/
theorem C6_witness :
    (setup_eqdc Htriv ⟨1, 1, 0, 0⟩).map (fun q => q.n) = .ok (Real.sin 1) :=
  C6_eqdc_tangent_cone Htriv ⟨1, 1, 0, 0⟩ (by norm_num [EPS10]) (by norm_num [EPS10])
    (by norm_num [Htriv])

/-! ## Claim C7: branches of the Equidistant Conic inverse -/

/-- Claim C7: in the Equidistant Conic inverse, (a) when
`rho = hypot(x, rho0 - y) = 0` the output is longitude `0` and latitude
`+half_pi` or `-half_pi` by the sign of `n`, with no division by `n`; and
(b) when `n < 0` and `rho ≠ 0`, the values `rho`, `x` and the shifted
`rho0 - y` are all negated before the latitude (`c - (-rho) = c + rho`) and
the longitude (`atan2(-x, -(rho0-y))/n`) are recovered. -/
theorem C7_eqdc_inverse_branches (H : EllipticHelpers) (es : ℝ) (q : par_eqdc) (x y : ℝ) :
    (Real.sqrt (x ^ 2 + (q.rho0 - y) ^ 2) = 0 →
      eqdc_inv H es q x y = (0, if 0 < q.n then π / 2 else -(π / 2)))
    ∧ (q.n < 0 → Real.sqrt (x ^ 2 + (q.rho0 - y) ^ 2) ≠ 0 →
      eqdc_inv H es q x y =
        (atan2 (-x) (-(q.rho0 - y)) / q.n,
         if q.ellips then
           H.inv_mlfn (q.c + Real.sqrt (x ^ 2 + (q.rho0 - y) ^ 2)) es q.en
         else q.c + Real.sqrt (x ^ 2 + (q.rho0 - y) ^ 2))) := by
  constructor
  · intro h0
    rw [eqdc_inv, if_pos h0]
  · intro hn hρ
    rw [eqdc_inv, if_neg hρ]
    simp only [if_pos hn, sub_neg_eq_add]

/-- Witness for C7: the apex branch at `(x, y) = (0, 0)` with `rho0 = 0`,
`n = 1`, and the `n < 0` branch at `(x, y) = (1, 0)` with `n = -1`,
`c = 5`, sphere path. -/
theorem C7_witness :
    eqdc_inv Htriv 0 ⟨0, 0, 1, 0, 0, fun _ => 0, false⟩ 0 0 = (0, π / 2)
    ∧ eqdc_inv Htriv 0 ⟨0, 0, -1, 0, 5, fun _ => 0, false⟩ 1 0 =
        (atan2 (-1) (-(0 - 0)) / (-1), 5 + Real.sqrt (1 ^ 2 + (0 - 0) ^ 2)) := by
  constructor
  · have h := (C7_eqdc_inverse_branches Htriv 0 ⟨0, 0, 1, 0, 0, fun _ => 0, false⟩ 0 0).1
      (by norm_num)
    rw [h, if_pos (by norm_num : (0 : ℝ) < 1)]
  · exact (C7_eqdc_inverse_branches Htriv 0 ⟨0, 0, -1, 0, 5, fun _ => 0, false⟩ 1 0).2
      (by norm_num) (by norm_num)

/-! ## Claim C8: QSC cube-face selection -/

/-- Claim C8: `setup_qsc` selects the face from the projection center
exactly as described: reference latitude within `22.5°` of `+90°`
(`phi0 ≥ 3π/8`) gives top, within `22.5°` of `-90°` gives bottom;
otherwise `|lam0| ≤ 45°` gives front, `45° < |lam0| ≤ 135°` gives right
(`lam0 > 0`) or left (`lam0 < 0`), and any other `lam0` gives back; in
particular `phi0 = ±π/2` give top/bottom and, at the equator,
`lam0 = 0, ±π/2, ±π` give front, right/left and back. -/
theorem C8_qsc_face_selection (phi0 lam0 : ℝ) :
    (3 * π / 8 ≤ phi0 → qsc_face phi0 lam0 = FACE_TOP)
    ∧ (phi0 ≤ -(3 * π / 8) → qsc_face phi0 lam0 = FACE_BOTTOM)
    ∧ (|phi0| < 3 * π / 8 →
        (|lam0| ≤ π / 4 → qsc_face phi0 lam0 = FACE_FRONT)
        ∧ (π / 4 < |lam0| → |lam0| ≤ 3 * π / 4 → 0 < lam0 → qsc_face phi0 lam0 = FACE_RIGHT)
        ∧ (π / 4 < |lam0| → |lam0| ≤ 3 * π / 4 → lam0 < 0 → qsc_face phi0 lam0 = FACE_LEFT)
        ∧ (3 * π / 4 < |lam0| → qsc_face phi0 lam0 = FACE_BACK))
    ∧ qsc_face (π / 2) lam0 = FACE_TOP
    ∧ qsc_face (-(π / 2)) lam0 = FACE_BOTTOM
    ∧ qsc_face 0 0 = FACE_FRONT
    ∧ qsc_face 0 (π / 2) = FACE_RIGHT
    ∧ qsc_face 0 (-(π / 2)) = FACE_LEFT
    ∧ qsc_face 0 π = FACE_BACK
    ∧ qsc_face 0 (-π) = FACE_BACK := by
  have hπ := Real.pi_pos
  have habs2 : |π / 2| = π / 2 := abs_of_nonneg (by linarith)
  have habsn2 : |(-(π / 2))| = π / 2 := by rw [abs_neg]; exact habs2
  have habsπ : |π| = π := abs_of_nonneg (by linarith)
  have habsnπ : |(-π)| = π := by rw [abs_neg]; exact habsπ
  refine ⟨?_, ?_, ?_, ?_, ?_, ?_, ?_, ?_, ?_, ?_⟩
  · intro h; rw [qsc_face, if_pos (by linarith)]
  · intro h
    rw [qsc_face, if_neg (by push_neg; linarith), if_pos (by linarith)]
  · intro h
    obtain ⟨h1, h2⟩ := abs_lt.mp h
    refine ⟨?_, ?_, ?_, ?_⟩
    · intro hl
      rw [qsc_face, if_neg (by push_neg; linarith), if_neg (by push_neg; linarith), if_pos hl]
    · intro hl1 hl2 hl3
      rw [qsc_face, if_neg (by push_neg; linarith), if_neg (by push_neg; linarith),
        if_neg (by push_neg; linarith), if_pos (by linarith), if_pos hl3]
    · intro hl1 hl2 hl3
      rw [qsc_face, if_neg (by push_neg; linarith), if_neg (by push_neg; linarith),
        if_neg (by push_neg; linarith), if_pos (by linarith), if_neg (by push_neg; exact hl3.le)]
    · intro hl
      rw [qsc_face, if_neg (by push_neg; linarith), if_neg (by push_neg; linarith),
        if_neg (by push_neg; linarith), if_neg (by push_neg; linarith)]
  · rw [qsc_face, if_pos (by linarith)]
  · rw [qsc_face, if_neg (by push_neg; linarith), if_pos (by linarith)]
  · rw [qsc_face, if_neg (by push_neg; linarith), if_neg (by push_neg; linarith),
      if_pos (by rw [abs_zero]; linarith)]
  · rw [qsc_face, if_neg (by push_neg; linarith), if_neg (by push_neg; linarith),
      if_neg (by push_neg; rw [habs2]; linarith),
      if_pos (by rw [habs2]; linarith), if_pos (by linarith)]
  · rw [qsc_face, if_neg (by push_neg; linarith), if_neg (by push_neg; linarith),
      if_neg (by push_neg; rw [habsn2]; linarith),
      if_pos (by rw [habsn2]; linarith), if_neg (by push_neg; linarith)]
  · rw [qsc_face, if_neg (by push_neg; linarith), if_neg (by push_neg; linarith),
      if_neg (by push_neg; rw [habsπ]; linarith),
      if_neg (by push_neg; rw [habsπ]; linarith)]
  · rw [qsc_face, if_neg (by push_neg; linarith), if_neg (by push_neg; linarith),
      if_neg (by push_neg; rw [habsnπ]; linarith),
      if_neg (by push_neg; rw [habsnπ]; linarith)]

/-- Witness for C8: the pole `phi0 = π/2` (top face) through the theorem's
hypothesis-bearing first conjunct at `phi0 = π/2`, `lam0 = 0`. -/
theorem C8_witness : qsc_face (π / 2) 0 = FACE_TOP :=
  (C8_qsc_face_selection (π / 2) 0).1 (by nlinarith [Real.pi_pos])

/-! ## Claim C9: the forward map at the reference point -/

/-- Claim C9: the Cassini spheroid forward map at the reference point
(relative longitude `0`, latitude `phi0`, for a reference latitude strictly
inside `(-π/2, π/2)`), the Cassini ellipsoid forward map at the reference
point of any successfully constructed kernel, and the Equidistant Conic
forward map (both sphere and ellipsoid paths) at the reference point of any
successfully constructed kernel, all return exactly `(0, 0)` in real
arithmetic. -/
theorem C9_reference_point_zero :
    (∀ phi0 : ℝ, |phi0| < π / 2 → cass_s_fwd phi0 0 phi0 = (0, 0))
    ∧ (∀ (H : EllipticHelpers) (p : CassParams) (q : par_cass), p.es ≠ 0 →
        setup_cass H p = .ok q → cass_e_fwd H p.es q 0 p.phi0 = (0, 0))
    ∧ (∀ (H : EllipticHelpers) (p : EqdcParams) (q : par_eqdc),
        setup_eqdc H p = .ok q → eqdc_fwd H q 0 p.phi0 = (0, 0)) := by
  refine ⟨?_, ?_, ?_⟩
  · intro phi0 h
    obtain ⟨h1, h2⟩ := abs_lt.mp h
    unfold cass_s_fwd atan2
    rw [Real.sin_zero, Real.cos_zero, mul_zero, Real.arcsin_zero,
      if_pos one_pos, div_one, Real.arctan_tan h1 h2, sub_self]
  · intro H p q hes hok
    rw [setup_cass, if_pos hes] at hok
    cases hen : H.enfn p.es with
    | none => rw [hen] at hok; exact absurd hok (by simp)
    | some en =>
      rw [hen] at hok
      injection hok with hq
      subst hq
      simp [cass_e_fwd]
  · intro H p q hok
    rw [setup_eqdc] at hok
    split at hok
    · exact absurd hok (by simp)
    · split at hok
      · exact absurd hok (by simp)
      · simp only [] at hok
        split at hok
        · injection hok with hq
          subst hq
          simp [eqdc_fwd]
        · injection hok with hq
          subst hq
          simp [eqdc_fwd]

/-- Witness for C9: the sphere Cassini at `phi0 = 0`, the ellipsoid Cassini
with `es = 1/2`, `phi0 = 0`, and the sphere Equidistant Conic with
`phi1 = phi2 = 1`, `phi0 = 0`. -/
theorem C9_witness :
    cass_s_fwd 0 0 0 = (0, 0)
    ∧ cass_e_fwd Htriv (1 / 2) ⟨0, fun _ => 0⟩ 0 0 = (0, 0)
    ∧ eqdc_fwd Htriv ⟨1, 1, Real.sin 1, 1 + Real.cos 1 / Real.sin 1 - 0,
        1 + Real.cos 1 / Real.sin 1, fun _ => 0, false⟩ 0 0 = (0, 0) := by
  refine ⟨?_, ?_, ?_⟩
  · exact (C9_reference_point_zero).1 0 (by rw [abs_zero]; linarith [Real.pi_pos])
  · refine (C9_reference_point_zero).2.1 Htriv ⟨1 / 2, 0⟩ _ (by norm_num) ?_
    norm_num [setup_cass, Htriv]
  · refine (C9_reference_point_zero).2.2 Htriv ⟨1, 1, 0, 0⟩ _ ?_
    norm_num [setup_eqdc, Htriv, EPS10]

/-! ## Claim C10: guards in the QSC inverse -/

/-- The guarded `(q, r, s)` of the QSC inverse lie inside the closed unit
ball whenever the clamped `cosphi` input is in `[-1, 1]`. -/
lemma qsc_qrs_sum_le (c θ : ℝ) (hc1 : -1 ≤ c) (hc2 : c ≤ 1) :
    (qsc_inv_qrs c θ).1 ^ 2 + (qsc_inv_qrs c θ).2.1 ^ 2 + (qsc_inv_qrs c θ).2.2 ^ 2 ≤ 1 := by
  have h0 : 0 ≤ 1 - c * c := by nlinarith
  have hsq : (Real.sqrt (1 - c * c) * Real.sin θ) * (Real.sqrt (1 - c * c) * Real.sin θ)
      ≤ 1 - c * c := by
    have h1 : (Real.sqrt (1 - c * c) * Real.sin θ) * (Real.sqrt (1 - c * c) * Real.sin θ)
        = (1 - c * c) * (Real.sin θ * Real.sin θ) := by
      rw [show (Real.sqrt (1 - c * c) * Real.sin θ) * (Real.sqrt (1 - c * c) * Real.sin θ)
          = Real.sqrt (1 - c * c) ^ 2 * (Real.sin θ * Real.sin θ) from by ring,
        Real.sq_sqrt h0]
    rw [h1]
    nlinarith [Real.sin_sq_le_one θ, sq_nonneg (Real.sin θ)]
  simp only [qsc_inv_qrs]
  split_ifs with h1 h2 h3
  · nlinarith
  · exfalso; apply h2; simpa using h1
  · nlinarith [hsq]
  · have h0' : 0 ≤ 1 - (c * c +
        Real.sqrt (1 - c * c) * Real.sin θ * (Real.sqrt (1 - c * c) * Real.sin θ)) := by
      have := not_le.mp h3
      linarith
    rw [Real.sq_sqrt h0']
    nlinarith [hsq]

/-- Claim C10: in the QSC inverse, the cosine-of-phi value is clamped into
`[-1, +1]` before `acos` for every input `(x, y)`, and with the `s`/`r`
guards the unit-sphere components stay inside the closed unit ball, so that
after every area rotation and every face rotation the argument `-s` handed
to `acos` lies in `[-1, 1]`: the inverse produces a real latitude and
longitude on every face path, even for inputs outside the face's image. -/
theorem C10_qsc_inverse_guards :
    (∀ x y : ℝ, -1 ≤ qsc_inv_cosphi x y ∧ qsc_inv_cosphi x y ≤ 1)
    ∧ (∀ c θ : ℝ, -1 ≤ c → c ≤ 1 →
        (qsc_inv_qrs c θ).1 ^ 2 + (qsc_inv_qrs c θ).2.1 ^ 2 + (qsc_inv_qrs c θ).2.2 ^ 2 ≤ 1
        ∧ ∀ area face : ℕ,
            |(qsc_face_rotate face (qsc_area_rotate area (qsc_inv_qrs c θ))).2.2| ≤ 1) := by
  constructor
  · intro x y
    unfold qsc_inv_cosphi qsc_clamp
    split_ifs with h1 h2
    · constructor <;> linarith
    · constructor <;> linarith
    · constructor <;> linarith
  · intro c θ hc1 hc2
    have hsum := qsc_qrs_sum_le c θ hc1 hc2
    refine ⟨hsum, ?_⟩
    intro area face
    have hq2 := sq_nonneg (qsc_inv_qrs c θ).1
    have hr2 := sq_nonneg (qsc_inv_qrs c θ).2.1
    have hs2 := sq_nonneg (qsc_inv_qrs c θ).2.2
    have hs : |(qsc_inv_qrs c θ).2.2| ≤ 1 := by
      rw [abs_le]
      constructor <;> nlinarith [sq_nonneg ((qsc_inv_qrs c θ).2.2 + 1),
        sq_nonneg ((qsc_inv_qrs c θ).2.2 - 1)]
    have hr : |(qsc_inv_qrs c θ).2.1| ≤ 1 := by
      rw [abs_le]
      constructor <;> nlinarith [sq_nonneg ((qsc_inv_qrs c θ).2.1 + 1),
        sq_nonneg ((qsc_inv_qrs c θ).2.1 - 1)]
    unfold qsc_area_rotate qsc_face_rotate
    split_ifs <;> simp only [abs_neg] <;> first | exact hs | exact hr

/-- Witness for C10: the clamp at the concrete input `(3, 7)` and the
guarded components at `cosphi = 1/2`, `theta = 1`, rotated into area `2` on
the right face. -/
theorem C10_witness :
    (-1 ≤ qsc_inv_cosphi 3 7 ∧ qsc_inv_cosphi 3 7 ≤ 1)
    ∧ (qsc_inv_qrs (1 / 2) 1).1 ^ 2 + (qsc_inv_qrs (1 / 2) 1).2.1 ^ 2 +
        (qsc_inv_qrs (1 / 2) 1).2.2 ^ 2 ≤ 1
    ∧ |(qsc_face_rotate 1 (qsc_area_rotate 2 (qsc_inv_qrs (1 / 2) 1))).2.2| ≤ 1 :=
  ⟨(C10_qsc_inverse_guards).1 3 7,
   ((C10_qsc_inverse_guards).2 (1 / 2) 1 (by norm_num) (by norm_num)).1,
   ((C10_qsc_inverse_guards).2 (1 / 2) 1 (by norm_num) (by norm_num)).2 2 1⟩

/-! ## Claim C4: `sin_cos_series` is the Clenshaw evaluation of the sum -/

/-- The classical backward Clenshaw recurrence for
`Σ c[i]·sin(2ix)`: `b k = ar * b (k+1) - b (k+2) + c k` for `k ≤ n` and
`b k = 0` for `k ≥ n+1`. -/
def bseq (ar : ℝ) (c : ℕ → ℝ) (n : ℕ) (k : ℕ) : ℝ :=
  if n + 1 ≤ k then 0 else ar * bseq ar c n (k + 1) - bseq ar c n (k + 2) + c k
termination_by n + 2 - k
decreasing_by all_goals omega

lemma bseq_of_ge (ar : ℝ) (c : ℕ → ℝ) (n k : ℕ) (h : n + 1 ≤ k) : bseq ar c n k = 0 := by
  rw [bseq, if_pos h]

lemma bseq_of_le (ar : ℝ) (c : ℕ → ℝ) (n k : ℕ) (h : k ≤ n) :
    bseq ar c n k = ar * bseq ar c n (k + 1) - bseq ar c n (k + 2) + c k := by
  rw [bseq, if_neg (by omega)]

/-- The unrolled-by-2 loop computes the pair `(b j, b (j+1))` of backward
recurrence values when started at index `j + 2m` with the matching pair. -/
lemma clenshaw_loop_bseq (ar : ℝ) (c : ℕ → ℝ) (n : ℕ) :
    ∀ m j, 1 ≤ j → j + 2 * m ≤ n + 1 →
      clenshaw_loop ar c m (j + 2 * m) (bseq ar c n (j + 2 * m)) (bseq ar c n (j + 2 * m + 1))
        = (bseq ar c n j, bseq ar c n (j + 1)) := by
  intro m
  induction m with
  | zero => intro j h1 h2; simp [clenshaw_loop]
  | succ m ih =>
    intro j h1 h2
    have h3 : j + 2 * m + 1 ≤ n := by omega
    have h4 : j + 2 * m ≤ n := by omega
    have e : j + 2 * (m + 1) = j + 2 * m + 1 + 1 := by omega
    rw [e, clenshaw_loop]
    have e1 : j + 2 * m + 1 + 1 - 1 = j + 2 * m + 1 := by omega
    have e2 : j + 2 * m + 1 + 1 - 2 = j + 2 * m := by omega
    rw [e1, e2]
    have eb1 : ar * bseq ar c n (j + 2 * m + 1 + 1) - bseq ar c n (j + 2 * m + 1 + 1 + 1)
        + c (j + 2 * m + 1) = bseq ar c n (j + 2 * m + 1) := by
      rw [bseq_of_le ar c n (j + 2 * m + 1) h3]
    have eb0 : ar * bseq ar c n (j + 2 * m + 1) - bseq ar c n (j + 2 * m + 1 + 1)
        + c (j + 2 * m) = bseq ar c n (j + 2 * m) := by
      rw [bseq_of_le ar c n (j + 2 * m) h4]
    simp only [eb1, eb0]
    exact ih j h1 (by omega)

/-- Downward telescoping of the backward recurrence: the partial sums of
`Σ c[i]·sin(2ix)` are expressed by two adjacent `bseq` values. -/
lemma bseq_sum (x : ℝ) (c : ℕ → ℝ) (n : ℕ) :
    ∀ t, t ≤ n →
      ∑ i in Finset.Ico (n - t + 1) (n + 1), c i * Real.sin (2 * i * x)
        = bseq (2 * Real.cos (2 * x)) c n (n - t + 1) * Real.sin (2 * ((n - t : ℕ) + 1) * x)
          - bseq (2 * Real.cos (2 * x)) c n (n - t + 2) * Real.sin (2 * (n - t : ℕ) * x) := by
  intro t
  induction t with
  | zero =>
    intro _
    simp [bseq_of_ge (2 * Real.cos (2 * x)) c n (n + 1) (by omega),
      bseq_of_ge (2 * Real.cos (2 * x)) c n (n + 2) (by omega)]
  | succ t ih =>
    intro ht
    have ihh := ih (by omega)
    set M := n - (t + 1) with hM
    have hnt : n - t = M + 1 := by omega
    rw [hnt] at ihh
    rw [Finset.sum_eq_sum_Ico_succ_bot (by omega : M + 1 < n + 1)]
    rw [ihh]
    have hrec := bseq_of_le (2 * Real.cos (2 * x)) c n (M + 1) (by omega)
    have htrig : Real.sin (2 * ((M : ℝ) + 2) * x) + Real.sin (2 * (M : ℝ) * x)
        = 2 * Real.cos (2 * x) * Real.sin (2 * ((M : ℝ) + 1) * x) := by
      have h1 : 2 * ((M : ℝ) + 2) * x = 2 * ((M : ℝ) + 1) * x + 2 * x := by ring
      have h2 : 2 * (M : ℝ) * x = 2 * ((M : ℝ) + 1) * x - 2 * x := by ring
      rw [h1, h2, Real.sin_add, Real.sin_sub]
      ring
    push_cast
    rw [show M + 1 + 1 = M + 2 from rfl, show M + 1 + 2 = M + 3 from rfl] at *
    rw [show 2 * ((M : ℝ) + 1 + 1) * x = 2 * ((M : ℝ) + 2) * x from by ring]
    linear_combination bseq (2 * Real.cos (2 * x)) c n (M + 2) * htrig
      - Real.sin (2 * ((M : ℝ) + 1) * x) * hrec

/-- Claim C4: in exact real arithmetic, `sin_cos_series(sinx, cosx, c)`
with `sinx = sin x`, `cosx = cos x` equals the direct sum
`Σ_{i=1..n} c[i]·sin(2ix)` over `i = 1 .. n` (`n = static_size - 1`): the
Clenshaw recurrence with `ar = 2(cosx - sinx)(cosx + sinx)` is equivalent
to naive term-by-term summation; in particular it returns `0` when every
coefficient is `0`, and `k·sin(2x)` when `n = 1` and `c[1] = k`. -/
theorem C4_sin_cos_series_clenshaw (sinx cosx x : ℝ) (N : ℕ) (c : ℕ → ℝ)
    (hs : sinx = Real.sin x) (hc : cosx = Real.cos x) :
    sin_cos_series sinx cosx N c
      = ∑ i in Finset.Icc 1 (N - 1), c i * Real.sin (2 * i * x) := by
  subst hs hc
  have har : 2 * (Real.cos x - Real.sin x) * (Real.cos x + Real.sin x)
      = 2 * Real.cos (2 * x) := by
    rw [Real.cos_two_mul (x := x)]
    linear_combination (-2) * Real.sin_sq_add_cos_sq x
  simp only [sin_cos_series]
  rw [har]
  set n := N - 1 with hn
  have hb := bseq_sum x c n n (le_refl n)
  rw [Nat.sub_self] at hb
  norm_num at hb
  -- hb : ∑ i in Ico 1 (n+1), c i * sin (2*i*x) = bseq (2*cos 2x) c n 1 * sin (2*x)
  rw [← Nat.Ico_succ_right]
  rcases Nat.even_or_odd n with he | ho
  · have h0 := Nat.even_iff.mp he
    have h1 : ¬(n % 2 = 1) := by omega
    rw [if_neg h1, if_neg h1]
    have hnn : 1 + 2 * (n / 2) = n + 1 := by omega
    have hloop := clenshaw_loop_bseq (2 * Real.cos (2 * x)) c n (n / 2) 1 (le_refl 1) (by omega)
    rw [hnn] at hloop
    rw [bseq_of_ge (2 * Real.cos (2 * x)) c n (n + 1) (by omega),
      bseq_of_ge (2 * Real.cos (2 * x)) c n (n + 1 + 1) (by omega)] at hloop
    rw [hloop]
    rw [hb]
    rw [Real.sin_two_mul]
    ring
  · have h0 := Nat.odd_iff.mp ho
    rw [if_pos h0, if_pos h0]
    have hnn : 1 + 2 * (n / 2) = n := by omega
    have hloop := clenshaw_loop_bseq (2 * Real.cos (2 * x)) c n (n / 2) 1 (le_refl 1) (by omega)
    rw [hnn] at hloop
    have hcn : bseq (2 * Real.cos (2 * x)) c n n = c n := by
      rw [bseq_of_le (2 * Real.cos (2 * x)) c n n (le_refl n),
        bseq_of_ge (2 * Real.cos (2 * x)) c n (n + 1) (by omega),
        bseq_of_ge (2 * Real.cos (2 * x)) c n (n + 2) (by omega)]
      ring
    rw [hcn, bseq_of_ge (2 * Real.cos (2 * x)) c n (n + 1) (by omega)] at hloop
    rw [hloop]
    rw [hb]
    rw [Real.sin_two_mul]
    ring

/-- Witness for C4: `x = 0`, `static_size = 2`, `c[1] = 5`; both sides
evaluate along the theorem. -/
theorem C4_witness :
    sin_cos_series 0 1 2 (fun i => if i = 1 then (5 : ℝ) else 0)
      = ∑ i in Finset.Icc (1 : ℕ) (2 - 1),
          (if i = 1 then (5 : ℝ) else 0) * Real.sin (2 * i * 0) :=
  C4_sin_cos_series_clenshaw 0 1 0 2 _ (by simp) (by simp)

set_option maxHeartbeats 1000000 in
/-- One certified Newton step of the Eckert IV pole iteration, generic in
the interval endpoints and the auxiliary rational bounds: for
`d = half_pi - lat` in `[LO, HI]`, the correction `V` stays at or below
`-EPS` and `d + V` lands in `[LOn, HIn]`.  The hypotheses are the purely
rational side conditions; each concrete step discharges them by
`norm_num`. -/
theorem eck4_step_generic
    (LO HI LOn HIn LO3 HI2 HI3 HI4 HI5 HI8 Bhi Dlo Dhi EK : ℝ)
    (c1 : 0 < LO) (c2 : HI ≤ 1) (c3 : 5 / 96 * HI ≤ 1 / 6)
    (p2 : HI ^ 2 ≤ HI2) (p2b : HI2 ≤ 1)
    (p3l : LO3 ≤ LO ^ 3) (p3 : HI ^ 3 ≤ HI3) (p3b : HI3 ≤ 1)
    (p4 : HI ^ 4 ≤ HI4) (p4b : HI4 ≤ 1)
    (p5 : HI ^ 5 ≤ HI5) (p8 : HI ^ 8 ≤ HI8)
    (cpos : 0 < LO - HI3 / 6 - 5 / 96 * HI4)
    (cb1 : 3.14159265358979323847 / 2 + 2 - 3.57079632679489661922
            - 2 / 3 * LO3 + 15 / 96 * HI4 + 13 / 96 * HI5 + 25 / 9216 * HI8 ≤ 0)
    (cb2 : 2 / 3 * HI + 15 / 96 * HI2 ≤ Bhi - 1)
    (cd1 : Dlo ≤ 2 - HI2 / 3 - 10 / 96 * HI3)
    (cd2 : 2 * HI + 2 ≤ Dhi)
    (cek1 : 1e-7 * Dhi ≤ EK) (cek2 : EK ≤ LO)
    (cdb : 0 ≤ Dlo - Bhi)
    (cg2 : LOn * Dlo ≤ (Dlo - Bhi) * LO) (cg2b : LOn ≤ LO)
    (cg3 : (Dhi - 1) * HI ≤ HIn * Dhi) (cg3b : HIn ≤ LO)
    (d : ℝ) (h1 : LO ≤ d) (h2 : d ≤ HI) :
    eck4_V C_p (π / 2 - d) ≤ -EPS
    ∧ LOn ≤ d + eck4_V C_p (π / 2 - d)
    ∧ d + eck4_V C_p (π / 2 - d) ≤ HIn := by
  have hd0 : (0 : ℝ) ≤ d := le_trans c1.le h1
  have hdle : |d| ≤ 1 := by rw [abs_of_nonneg hd0]; linarith only [h2, c2]
  have hsb := Real.sin_bound hdle
  have hcb := Real.cos_bound hdle
  rw [abs_of_nonneg hd0] at hsb hcb
  obtain ⟨hs1, hs2⟩ := abs_le.mp hsb
  obtain ⟨hc1, hc2⟩ := abs_le.mp hcb
  clear hsb hcb
  have hπ1 := Real.pi_gt_d20
  have hπ2 := Real.pi_lt_d20
  have hCpv : C_p = (3.57079632679489661922 : ℝ) := rfl
  set S := Real.sin d
  set C := Real.cos d
  have hm2 : d ^ 2 ≤ HI2 := le_trans (pow_le_pow_left₀ hd0 h2 2) p2
  have hm3l : LO3 ≤ d ^ 3 := le_trans p3l (pow_le_pow_left₀ c1.le h1 3)
  have hm3h : d ^ 3 ≤ HI3 := le_trans (pow_le_pow_left₀ hd0 h2 3) p3
  have hm4 : d ^ 4 ≤ HI4 := le_trans (pow_le_pow_left₀ hd0 h2 4) p4
  have hm5 : d ^ 5 ≤ HI5 := le_trans (pow_le_pow_left₀ hd0 h2 5) p5
  have hm8 : d ^ 8 ≤ HI8 := le_trans (pow_le_pow_left₀ hd0 h2 8) p8
  have hm3p : (0 : ℝ) ≤ d ^ 3 := pow_nonneg hd0 3
  have hm4p : (0 : ℝ) ≤ d ^ 4 := pow_nonneg hd0 4
  have hm5p : (0 : ℝ) ≤ d ^ 5 := pow_nonneg hd0 5
  have hm6p : (0 : ℝ) ≤ d ^ 6 := pow_nonneg hd0 6
  have hm7p : (0 : ℝ) ≤ d ^ 7 := pow_nonneg hd0 7
  have hm8p : (0 : ℝ) ≤ d ^ 8 := pow_nonneg hd0 8
  have hS1 : d - d ^ 3 / 6 - 5 / 96 * d ^ 4 ≤ S := by linarith only [hs1]
  have hS2 : S ≤ d - d ^ 3 / 6 + 5 / 96 * d ^ 4 := by linarith only [hs2]
  have hC1 : 1 - d ^ 2 / 2 - 5 / 96 * d ^ 4 ≤ C := by linarith only [hc1]
  have hC2 : C ≤ 1 - d ^ 2 / 2 + 5 / 96 * d ^ 4 := by linarith only [hc2]
  have hSpos : 0 < S := by linarith only [hS1, h1, hm3h, hm4, cpos]
  have hq43 : d ^ 4 ≤ HI * d ^ 3 := by
    rw [pow_succ']; exact mul_le_mul_of_nonneg_right h2 hm3p
  have hc3d := mul_le_mul_of_nonneg_right c3 hm3p
  have hS_le_d : S ≤ d := by linarith only [hS2, hq43, hc3d]
  have hq2d : d ^ 2 ≤ HI * d := by
    rw [sq]; exact mul_le_mul_of_nonneg_right h2 hd0
  have hq3d : d ^ 3 ≤ HI2 * d := by
    rw [pow_succ]; exact mul_le_mul_of_nonneg_right hm2 hd0
  have hq4d : d ^ 4 ≤ HI3 * d := by
    rw [pow_succ]; exact mul_le_mul_of_nonneg_right hm3h hd0
  have hq3q : d ^ 3 ≤ HI * d ^ 2 := by
    rw [pow_succ']; exact mul_le_mul_of_nonneg_right h2 (sq_nonneg d)
  have hq4q : d ^ 4 ≤ HI2 * d ^ 2 := by
    rw [show (4 : ℕ) = 2 + 2 from rfl, pow_add]
    exact mul_le_mul_of_nonneg_right hm2 (sq_nonneg d)
  have hSS : S ^ 2 ≤ d ^ 2 := by
    rw [sq, sq]; exact mul_le_mul hS_le_d hS_le_d hSpos.le hd0
  have hCS_up : C * (S + 2)
      ≤ (1 - d ^ 2 / 2 + 5 / 96 * d ^ 4) * (2 + d - d ^ 3 / 6 + 5 / 96 * d ^ 4) := by
    apply mul_le_mul hC2 (by linarith only [hS2]) (by linarith only [hSpos])
      (by linarith only [hm2, p2b, hm4p])
  have hCS_lo : (1 - d ^ 2 / 2 - 5 / 96 * d ^ 4) * (2 + d - d ^ 3 / 6 - 5 / 96 * d ^ 4)
      ≤ C * (S + 2) := by
    apply mul_le_mul hC1 (by linarith only [hS1]) (by linarith only [hd0, hm3h, hm4, p3b, p4b])
      (by linarith only [hC1, hm2, p2b, hm4, p4b])
  have hU : (1 - d ^ 2 / 2 + 5 / 96 * d ^ 4) * (2 + d - d ^ 3 / 6 + 5 / 96 * d ^ 4)
      = 2 + d - d ^ 2 - 2 / 3 * d ^ 3 + 15 / 96 * d ^ 4 + 13 / 96 * d ^ 5
        - 5 / 192 * d ^ 6 - 5 / 576 * d ^ 7 + 25 / 9216 * d ^ 8 := by ring
  have hL : (1 - d ^ 2 / 2 - 5 / 96 * d ^ 4) * (2 + d - d ^ 3 / 6 - 5 / 96 * d ^ 4)
      = 2 + d - d ^ 2 - 2 / 3 * d ^ 3 - 15 / 96 * d ^ 4 + 1 / 32 * d ^ 5
        + 5 / 192 * d ^ 6 + 5 / 576 * d ^ 7 + 25 / 9216 * d ^ 8 := by ring
  rw [hU] at hCS_up
  rw [hL] at hCS_lo
  have hβ1 : π / 2 - d + C * (S + 2) - C_p ≤ -(d ^ 2) := by
    linarith only [hCS_up, hπ2, hCpv, hm3l, hm4, hm5, hm8, hm6p, hm7p, cb1]
  have hb2a := mul_le_mul_of_nonneg_right cb2 (sq_nonneg d)
  have hβ2 : -Bhi * d ^ 2 ≤ π / 2 - d + C * (S + 2) - C_p := by
    linarith only [hCS_lo, hπ1, hCpv, hq3q, hq4q, hm5p, hm6p, hm7p, hm8p, hb2a]
  have hden_lo : Dlo * d ≤ 2 * S ^ 2 + 2 * S := by
    linarith only [hS1, sq_nonneg S, hq3d, hq4d, mul_le_mul_of_nonneg_right cd1 hd0]
  have hden_hi : 2 * S ^ 2 + 2 * S ≤ Dhi * d := by
    linarith only [hSS, hq2d, hS_le_d, mul_le_mul_of_nonneg_right cd2 hd0]
  have hdenpos : 0 < 2 * S ^ 2 + 2 * S := by linarith only [hSpos, sq_nonneg S]
  have hVeq : eck4_V C_p (π / 2 - d)
      = (π / 2 - d + C * (S + 2) - C_p) / (2 * S ^ 2 + 2 * S) := by
    rw [eck4_V, Real.sin_pi_div_two_sub, Real.cos_pi_div_two_sub,
      show 1 + Real.sin d * (Real.sin d + 2) - Real.cos d * Real.cos d
          = 2 * Real.sin d ^ 2 + 2 * Real.sin d from by
        linear_combination (-1 : ℝ) * Real.sin_sq_add_cos_sq d]
  have hEPSg : -EPS = (-(1e-7) : ℝ) := by rw [show EPS = (1e-7 : ℝ) from rfl]
  refine ⟨?_, ?_, ?_⟩
  · rw [hVeq, hEPSg, div_le_iff hdenpos]
    have hqek : EK * d ≤ d ^ 2 := by
      rw [sq]; exact mul_le_mul_of_nonneg_right (by linarith only [cek2, h1]) hd0
    have hek2 := mul_le_mul_of_nonneg_right cek1 hd0
    linarith only [hβ1, hden_hi, hqek, hek2]
  · rw [hVeq]
    have hp1 : (LOn - d) * (2 * S ^ 2 + 2 * S) ≤ (LOn - d) * (Dlo * d) :=
      mul_le_mul_of_nonpos_left hden_lo (by linarith only [cg2b, h1])
    have hx : (Dlo - Bhi) * LO ≤ (Dlo - Bhi) * d := mul_le_mul_of_nonneg_left h1 cdb
    have hp2 : LOn * Dlo * d ≤ (Dlo - Bhi) * d * d :=
      mul_le_mul_of_nonneg_right (by linarith only [cg2, hx]) hd0
    have hkey : (LOn - d) * (2 * S ^ 2 + 2 * S) ≤ π / 2 - d + C * (S + 2) - C_p := by
      linarith only [hβ2, hp1, hp2]
    have hk2 := (le_div_iff hdenpos).mpr hkey
    linarith only [hk2]
  · rw [hVeq]
    have hp1 : (HIn - d) * (Dhi * d) ≤ (HIn - d) * (2 * S ^ 2 + 2 * S) :=
      mul_le_mul_of_nonpos_left hden_hi (by linarith only [cg3b, h1])
    have hdhi1 : (0 : ℝ) ≤ Dhi - 1 := by linarith only [cd2, c1, h1, h2]
    have hy : (Dhi - 1) * d ≤ (Dhi - 1) * HI := mul_le_mul_of_nonneg_left h2 hdhi1
    have hp2 : (Dhi - 1) * d * d ≤ HIn * Dhi * d :=
      mul_le_mul_of_nonneg_right (by linarith only [cg3, hy]) hd0
    have hkey : π / 2 - d + C * (S + 2) - C_p ≤ (HIn - d) * (2 * S ^ 2 + 2 * S) := by
      linarith only [hβ1, hp1, hp2]
    have hk3 := (div_le_iff hdenpos).mpr hkey
    linarith only [hk3]

/-- The seed `lat *= 0.895168 + V*(0.0218849 + V*0.00826809)` applied at
`lat = half_pi` leaves a certified distance `half_pi - seed` interval. -/
theorem eck4_seed_interval :
    (0.000779865728715356 : ℝ) ≤ π / 2 - eck4_seed (π / 2)
    ∧ π / 2 - eck4_seed (π / 2) ≤ (0.000779865728715357 : ℝ) := by
  have hπ1 := Real.pi_gt_d20
  have hπ2 := Real.pi_lt_d20
  have hp0 : (0 : ℝ) ≤ π / 2 := by linarith only [hπ1]
  have e1 : π / 2 - eck4_seed (π / 2)
      = 0.104832 * (π / 2) - 0.0218849 * (π / 2) ^ 3 - 0.00826809 * (π / 2) ^ 5 := by
    rw [eck4_seed]; ring
  have h3u : (π / 2) ^ 3 ≤ (3.875784585037477522 : ℝ) := by
    calc (π / 2) ^ 3 ≤ (3.14159265358979323847 / 2) ^ 3 :=
      pow_le_pow_left₀ hp0 (by linarith only [hπ2]) 3
    _ ≤ (3.875784585037477522 : ℝ) := by norm_num
  have h3l : (3.875784585037477521 : ℝ) ≤ (π / 2) ^ 3 := by
    calc (3.875784585037477521 : ℝ) ≤ (3.14159265358979323846 / 2) ^ 3 := by norm_num
    _ ≤ (π / 2) ^ 3 := pow_le_pow_left₀ (by norm_num) (by linarith only [hπ1]) 3
  have h5u : (π / 2) ^ 5 ≤ (9.563115149540045415 : ℝ) := by
    calc (π / 2) ^ 5 ≤ (3.14159265358979323847 / 2) ^ 5 :=
      pow_le_pow_left₀ hp0 (by linarith only [hπ2]) 5
    _ ≤ (9.563115149540045415 : ℝ) := by norm_num
  have h5l : (9.563115149540045414 : ℝ) ≤ (π / 2) ^ 5 := by
    calc (9.563115149540045414 : ℝ) ≤ (3.14159265358979323846 / 2) ^ 5 := by norm_num
    _ ≤ (π / 2) ^ 5 := pow_le_pow_left₀ (by norm_num) (by linarith only [hπ1]) 5
  constructor
  · rw [e1]; linarith only [hπ1, h3u, h5u]
  · rw [e1]; linarith only [hπ2, h3l, h5l]


/-- Newton step 1 of the Eckert IV pole iteration (instantiation of
`eck4_step_generic` with certified interval endpoints). -/
theorem eck4_step1 (d : ℝ) (h1 : (0.000779865728715356 : ℝ) ≤ d) (h2 : d ≤ (0.000779865728715357 : ℝ)) :
    eck4_V C_p (π / 2 - d) ≤ -EPS
    ∧ (0.000389730054300327 : ℝ) ≤ d + eck4_V C_p (π / 2 - d)
    ∧ d + eck4_V C_p (π / 2 - d) ≤ (0.00039023672266641 : ℝ) :=
  eck4_step_generic 0.000779865728715356 0.000779865728715357 0.000389730054300327 0.00039023672266641 0.00000000047430697 0.000000608190554825 0.000000000474306971 0.000000000000369896 0.000000000000000289 0.000000000000000001
    1.000520013878204559 1.999999797217641291 2.001559731457430714 0.000000200155973146
    (by norm_num) (by norm_num) (by norm_num) (by norm_num) (by norm_num)
    (by norm_num) (by norm_num) (by norm_num) (by norm_num) (by norm_num)
    (by norm_num) (by norm_num) (by norm_num) (by norm_num) (by norm_num)
    (by norm_num) (by norm_num) (by norm_num) (by norm_num) (by norm_num)
    (by norm_num) (by norm_num) (by norm_num) (by norm_num)
    d h1 h2


/-- Newton step 2 of the Eckert IV pole iteration (instantiation of
`eck4_step_generic` with certified interval endpoints). -/
theorem eck4_step2 (d : ℝ) (h1 : (0.000389730054300327 : ℝ) ≤ d) (h2 : d ≤ (0.00039023672266641 : ℝ)) :
    eck4_V C_p (π / 2 - d) ≤ -EPS
    ∧ (0.000194814321497963 : ℝ) ≤ d + eck4_V C_p (π / 2 - d)
    ∧ d + eck4_V C_p (π / 2 - d) ≤ (0.000195194473981114 : ℝ) :=
  eck4_step_generic 0.000389730054300327 0.00039023672266641 0.000194814321497963 0.000195194473981114 0.000000000059195909 0.000000152284699718 0.000000000059427083 0.000000000000023191 0.00000000000000001 0.000000000000000001
    1.000260183703509893 1.999999949231896448 2.00078047344533282 0.000000200078047345
    (by norm_num) (by norm_num) (by norm_num) (by norm_num) (by norm_num)
    (by norm_num) (by norm_num) (by norm_num) (by norm_num) (by norm_num)
    (by norm_num) (by norm_num) (by norm_num) (by norm_num) (by norm_num)
    (by norm_num) (by norm_num) (by norm_num) (by norm_num) (by norm_num)
    (by norm_num) (by norm_num) (by norm_num) (by norm_num)
    d h1 h2


/-- Newton step 3 of the Eckert IV pole iteration (instantiation of
`eck4_step_generic` with certified interval endpoints). -/
theorem eck4_step3 (d : ℝ) (h1 : (0.000194814321497963 : ℝ) ≤ d) (h2 : d ≤ (0.000195194473981114 : ℝ)) :
    eck4_V C_p (π / 2 - d) ≤ -EPS
    ∧ (0.00009739448393972 : ℝ) ≤ d + eck4_V C_p (π / 2 - d)
    ∧ d + eck4_V C_p (π / 2 - d) ≤ (0.000097616283714079 : ℝ) :=
  eck4_step_generic 0.000194814321497963 0.000195194473981114 0.00009739448393972 0.000097616283714079 0.000000000007393713 0.000000038100882673 0.000000000007437082 0.000000000000001452 0.000000000000000001 0.000000000000000001
    1.000130136126470798 1.999999987298887696 2.000390388947962228 0.000000200039038895
    (by norm_num) (by norm_num) (by norm_num) (by norm_num) (by norm_num)
    (by norm_num) (by norm_num) (by norm_num) (by norm_num) (by norm_num)
    (by norm_num) (by norm_num) (by norm_num) (by norm_num) (by norm_num)
    (by norm_num) (by norm_num) (by norm_num) (by norm_num) (by norm_num)
    (by norm_num) (by norm_num) (by norm_num) (by norm_num)
    d h1 h2


/-- Newton step 4 of the Eckert IV pole iteration (instantiation of
`eck4_step_generic` with certified interval endpoints). -/
theorem eck4_step4 (d : ℝ) (h1 : (0.00009739448393972 : ℝ) ≤ d) (h2 : d ≤ (0.000097616283714079 : ℝ)) :
    eck4_V C_p (π / 2 - d) ≤ -EPS
    ∧ (0.000048694072717769 : ℝ) ≤ d + eck4_V C_p (π / 2 - d)
    ∧ d + eck4_V C_p (π / 2 - d) ≤ (0.000048812905861419 : ℝ) :=
  eck4_step_generic 0.00009739448393972 0.000097616283714079 0.000048694072717769 0.000048812905861419 0.000000000000923853 0.000000009528938847 0.00000000000093018 0.000000000000000091 0.000000000000000001 0.000000000000000001
    1.000065079142395657 1.999999996823584731 2.000195232567428158 0.000000200019523257
    (by norm_num) (by norm_num) (by norm_num) (by norm_num) (by norm_num)
    (by norm_num) (by norm_num) (by norm_num) (by norm_num) (by norm_num)
    (by norm_num) (by norm_num) (by norm_num) (by norm_num) (by norm_num)
    (by norm_num) (by norm_num) (by norm_num) (by norm_num) (by norm_num)
    (by norm_num) (by norm_num) (by norm_num) (by norm_num)
    d h1 h2


/-- Newton step 5 of the Eckert IV pole iteration (instantiation of
`eck4_step_generic` with certified interval endpoints). -/
theorem eck4_step5 (d : ℝ) (h1 : (0.000048694072717769 : ℝ) ≤ d) (h2 : d ≤ (0.000048812905861419 : ℝ)) :
    eck4_V C_p (π / 2 - d) ≤ -EPS
    ∧ (0.000024346244039624 : ℝ) ≤ d + eck4_V C_p (π / 2 - d)
    ∧ d + eck4_V C_p (π / 2 - d) ≤ (0.000024407644222449 : ℝ) :=
  eck4_step_generic 0.000048694072717769 0.000048812905861419 0.000024346244039624 0.000024407644222449 0.000000000000115459 0.000000002382699779 0.000000000000116307 0.000000000000000006 0.000000000000000001 0.000000000000000001
    1.000032542342299909 1.999999999205753946 2.000097625811722838 0.000000200009762582
    (by norm_num) (by norm_num) (by norm_num) (by norm_num) (by norm_num)
    (by norm_num) (by norm_num) (by norm_num) (by norm_num) (by norm_num)
    (by norm_num) (by norm_num) (by norm_num) (by norm_num) (by norm_num)
    (by norm_num) (by norm_num) (by norm_num) (by norm_num) (by norm_num)
    (by norm_num) (by norm_num) (by norm_num) (by norm_num)
    d h1 h2


/-- Newton step 6 of the Eckert IV pole iteration (instantiation of
`eck4_step_generic` with certified interval endpoints). -/
theorem eck4_step6 (d : ℝ) (h1 : (0.000024346244039624 : ℝ) ≤ d) (h2 : d ≤ (0.000024407644222449 : ℝ)) :
    eck4_V C_p (π / 2 - d) ≤ -EPS
    ∧ (0.000012172923939216 : ℝ) ≤ d + eck4_V C_p (π / 2 - d)
    ∧ d + eck4_V C_p (π / 2 - d) ≤ (0.000012204119970503 : ℝ) :=
  eck4_step_generic 0.000024346244039624 0.000024407644222449 0.000012172923939216 0.000012204119970503 0.00000000000001443 0.000000000595733097 0.000000000000014541 0.000000000000000001 0.000000000000000001 0.000000000000000001
    1.000016271864089593 1.999999999801420701 2.000048815288444898 0.000000200004881529
    (by norm_num) (by norm_num) (by norm_num) (by norm_num) (by norm_num)
    (by norm_num) (by norm_num) (by norm_num) (by norm_num) (by norm_num)
    (by norm_num) (by norm_num) (by norm_num) (by norm_num) (by norm_num)
    (by norm_num) (by norm_num) (by norm_num) (by norm_num) (by norm_num)
    (by norm_num) (by norm_num) (by norm_num) (by norm_num)
    d h1 h2


/-- One-step unfolding of the `for (i = NITER; i; --i)` loop. -/
lemma eck4_iter_succ (i : ℕ) (p lat : ℝ) :
    eck4_iter (i + 1) p lat
      = if |eck4_V p lat| < EPS then (i + 1, lat - eck4_V p lat)
        else eck4_iter i p (lat - eck4_V p lat) := rfl

/-- At `lat = half_pi` the Eckert IV Newton loop runs out its entire budget
of `NITER = 6` iterations (every correction satisfies `|V| ≥ EPS`), and the
iterated auxiliary angle stays positive. -/
theorem eck4_pole_exhausts :
    (eck4_iter 6 C_p (eck4_seed (π / 2))).1 = 0
    ∧ 0 < (eck4_iter 6 C_p (eck4_seed (π / 2))).2 := by
  have hπ1 := Real.pi_gt_d20
  obtain ⟨hA, hB⟩ := eck4_seed_interval
  set L0 := eck4_seed (π / 2) with hdefL0
  have hw0 : L0 = π / 2 - (π / 2 - L0) := by ring
  have s1 := eck4_step1 (π / 2 - L0) hA hB
  rw [← hw0] at s1
  set L1 := L0 - eck4_V C_p L0 with hdefL1
  have hd1 : π / 2 - L1 = (π / 2 - L0) + eck4_V C_p L0 := by rw [hdefL1]; ring
  have hVneg1 : eck4_V C_p L0 ≤ 0 := le_trans s1.1 (by norm_num [EPS])
  have hnb1 : ¬(|eck4_V C_p L0| < EPS) := by
    rw [not_lt, abs_of_nonpos hVneg1]
    have := s1.1
    have hE : EPS = (1e-7 : ℝ) := rfl
    linarith only [this, hE]
  have u1 : eck4_iter 6 C_p L0 = eck4_iter 5 C_p L1 := by
    show eck4_iter (5 + 1) C_p L0 = eck4_iter 5 C_p L1
    rw [eck4_iter_succ, if_neg hnb1, ← hdefL1]
  have hw1 : L1 = π / 2 - (π / 2 - L1) := by ring
  have s2 := eck4_step2 (π / 2 - L1) (by rw [hd1]; exact s1.2.1) (by rw [hd1]; exact s1.2.2)
  rw [← hw1] at s2
  set L2 := L1 - eck4_V C_p L1 with hdefL2
  have hd2 : π / 2 - L2 = (π / 2 - L1) + eck4_V C_p L1 := by rw [hdefL2]; ring
  have hVneg2 : eck4_V C_p L1 ≤ 0 := le_trans s2.1 (by norm_num [EPS])
  have hnb2 : ¬(|eck4_V C_p L1| < EPS) := by
    rw [not_lt, abs_of_nonpos hVneg2]
    have := s2.1
    have hE : EPS = (1e-7 : ℝ) := rfl
    linarith only [this, hE]
  have u2 : eck4_iter 5 C_p L1 = eck4_iter 4 C_p L2 := by
    show eck4_iter (4 + 1) C_p L1 = eck4_iter 4 C_p L2
    rw [eck4_iter_succ, if_neg hnb2, ← hdefL2]
  have hw2 : L2 = π / 2 - (π / 2 - L2) := by ring
  have s3 := eck4_step3 (π / 2 - L2) (by rw [hd2]; exact s2.2.1) (by rw [hd2]; exact s2.2.2)
  rw [← hw2] at s3
  set L3 := L2 - eck4_V C_p L2 with hdefL3
  have hd3 : π / 2 - L3 = (π / 2 - L2) + eck4_V C_p L2 := by rw [hdefL3]; ring
  have hVneg3 : eck4_V C_p L2 ≤ 0 := le_trans s3.1 (by norm_num [EPS])
  have hnb3 : ¬(|eck4_V C_p L2| < EPS) := by
    rw [not_lt, abs_of_nonpos hVneg3]
    have := s3.1
    have hE : EPS = (1e-7 : ℝ) := rfl
    linarith only [this, hE]
  have u3 : eck4_iter 4 C_p L2 = eck4_iter 3 C_p L3 := by
    show eck4_iter (3 + 1) C_p L2 = eck4_iter 3 C_p L3
    rw [eck4_iter_succ, if_neg hnb3, ← hdefL3]
  have hw3 : L3 = π / 2 - (π / 2 - L3) := by ring
  have s4 := eck4_step4 (π / 2 - L3) (by rw [hd3]; exact s3.2.1) (by rw [hd3]; exact s3.2.2)
  rw [← hw3] at s4
  set L4 := L3 - eck4_V C_p L3 with hdefL4
  have hd4 : π / 2 - L4 = (π / 2 - L3) + eck4_V C_p L3 := by rw [hdefL4]; ring
  have hVneg4 : eck4_V C_p L3 ≤ 0 := le_trans s4.1 (by norm_num [EPS])
  have hnb4 : ¬(|eck4_V C_p L3| < EPS) := by
    rw [not_lt, abs_of_nonpos hVneg4]
    have := s4.1
    have hE : EPS = (1e-7 : ℝ) := rfl
    linarith only [this, hE]
  have u4 : eck4_iter 3 C_p L3 = eck4_iter 2 C_p L4 := by
    show eck4_iter (2 + 1) C_p L3 = eck4_iter 2 C_p L4
    rw [eck4_iter_succ, if_neg hnb4, ← hdefL4]
  have hw4 : L4 = π / 2 - (π / 2 - L4) := by ring
  have s5 := eck4_step5 (π / 2 - L4) (by rw [hd4]; exact s4.2.1) (by rw [hd4]; exact s4.2.2)
  rw [← hw4] at s5
  set L5 := L4 - eck4_V C_p L4 with hdefL5
  have hd5 : π / 2 - L5 = (π / 2 - L4) + eck4_V C_p L4 := by rw [hdefL5]; ring
  have hVneg5 : eck4_V C_p L4 ≤ 0 := le_trans s5.1 (by norm_num [EPS])
  have hnb5 : ¬(|eck4_V C_p L4| < EPS) := by
    rw [not_lt, abs_of_nonpos hVneg5]
    have := s5.1
    have hE : EPS = (1e-7 : ℝ) := rfl
    linarith only [this, hE]
  have u5 : eck4_iter 2 C_p L4 = eck4_iter 1 C_p L5 := by
    show eck4_iter (1 + 1) C_p L4 = eck4_iter 1 C_p L5
    rw [eck4_iter_succ, if_neg hnb5, ← hdefL5]
  have hw5 : L5 = π / 2 - (π / 2 - L5) := by ring
  have s6 := eck4_step6 (π / 2 - L5) (by rw [hd5]; exact s5.2.1) (by rw [hd5]; exact s5.2.2)
  rw [← hw5] at s6
  set L6 := L5 - eck4_V C_p L5 with hdefL6
  have hd6 : π / 2 - L6 = (π / 2 - L5) + eck4_V C_p L5 := by rw [hdefL6]; ring
  have hVneg6 : eck4_V C_p L5 ≤ 0 := le_trans s6.1 (by norm_num [EPS])
  have hnb6 : ¬(|eck4_V C_p L5| < EPS) := by
    rw [not_lt, abs_of_nonpos hVneg6]
    have := s6.1
    have hE : EPS = (1e-7 : ℝ) := rfl
    linarith only [this, hE]
  have u6 : eck4_iter 1 C_p L5 = eck4_iter 0 C_p L6 := by
    show eck4_iter (0 + 1) C_p L5 = eck4_iter 0 C_p L6
    rw [eck4_iter_succ, if_neg hnb6, ← hdefL6]
  have hiter : eck4_iter 6 C_p L0 = (0, L6) := by
    rw [u1, u2, u3, u4, u5, u6]
    rfl
  rw [hiter]
  constructor
  · rfl
  · have h6 := s6.2.2
    show 0 < L6
    clear_value L0 L1 L2 L3 L4 L5 L6
    linarith only [hπ1, h6, hd6]


/-- Claim C2: at latitude exactly `+half_pi` the Eckert IV Newton iteration
exhausts its budget of 6 iterations without `|V|` falling below `1e-7`, and
the fallback branch produces exactly `y = +C_y` and `x = C_x * lon`; and in
general, whenever the budget is exhausted the output is `x = C_x * lon` and
`y = -C_y` or `+C_y` according to the sign of the iterated auxiliary
angle. -/
theorem C2_eck4_pole_fallback (lon : ℝ) :
    (eck4_iter 6 (C_p * Real.sin (π / 2)) (eck4_seed (π / 2))).1 = 0
    ∧ eck4_fwd lon (π / 2) = (C_x * lon, C_y)
    ∧ ∀ lon2 lat : ℝ, (eck4_iter 6 (C_p * Real.sin lat) (eck4_seed lat)).1 = 0 →
        eck4_fwd lon2 lat
          = (C_x * lon2,
             if (eck4_iter 6 (C_p * Real.sin lat) (eck4_seed lat)).2 < 0 then -C_y
             else C_y) := by
  have hCpS : C_p * Real.sin (π / 2) = C_p := by rw [Real.sin_pi_div_two, mul_one]
  obtain ⟨hA, hB⟩ := eck4_pole_exhausts
  refine ⟨by rw [hCpS]; exact hA, ?_, ?_⟩
  · simp only [eck4_fwd, hCpS]
    rw [if_pos hA, if_neg (not_lt.mpr (le_of_lt hB))]
  · intro lon2 lat h
    simp only [eck4_fwd]
    rw [if_pos h]

/-- Witness for C2: the pole instance itself, and the general fallback
conjunct applied at `lon = 2`, `lat = half_pi` with the exhaustion fact
supplied by the first conjunct. -/
theorem C2_witness :
    (eck4_iter 6 (C_p * Real.sin (π / 2)) (eck4_seed (π / 2))).1 = 0
    ∧ eck4_fwd 2 (π / 2)
      = (C_x * 2,
         if (eck4_iter 6 (C_p * Real.sin (π / 2)) (eck4_seed (π / 2))).2 < 0 then -C_y
         else C_y) :=
  ⟨(C2_eck4_pole_fallback 1).1,
   (C2_eck4_pole_fallback 1).2.2 2 (π / 2) (C2_eck4_pole_fallback 1).1⟩
